import Mathlib

/-!
Verification development for the tavily-server MCP tool (src/index.ts).

The embedding below translates the core of `src/index.ts` into Lean:
* `extractCodeBlocks`   — the two-stage code-fragment extractor (lines 156-187),
  with the JavaScript regex semantics made explicit as character-list scanners;
* `processSearchResults` — the per-category result formatter (lines 37-153);
* `policyFor` / `handleCallTool` — the CallToolRequestSchema handler
  (lines 228-326), with the external Tavily client abstracted as a function
  argument and the list of provider invocations returned as a trace.

All strings are modelled as Lean `String` / `List Char`; JavaScript
truthiness of strings (empty string is falsy) is modelled explicitly
wherever the source relies on it.
-/

namespace Tavily

/-- The backquote character, written via its code point. -/
def bq : Char := Char.ofNat 96

/-- JavaScript `\w`: ASCII letters, digits and underscore. -/
def isWordChar (c : Char) : Bool := c.isAlphanum || c = '_'

/-- JavaScript `\s` restricted to the ASCII range: space, tab, newline,
carriage return, vertical tab, form feed. -/
def jsWhitespace (c : Char) : Bool :=
  c = ' ' || c = '\t' || c = '\n' || c = '\r' || c = Char.ofNat 11 || c = Char.ofNat 12

/-- Drop leading JavaScript whitespace. -/
def dropWS : List Char → List Char
  | [] => []
  | c :: cs => if jsWhitespace c then dropWS cs else c :: cs

/-- JavaScript `String.prototype.trim` on character lists. -/
def trimJS (s : List Char) : List Char := ((dropWS ((dropWS s).reverse)).reverse)

/-- `trimJS` lifted to `String`. -/
def trimS (s : String) : String := (trimJS s.data).asString

/-- Does the list start with three backquotes?  Returns the remainder. -/
def startsTriple : List Char → Option (List Char)
  | a :: b :: c :: rest => if a = bq ∧ b = bq ∧ c = bq then some rest else none
  | _ => none

/-- Find the earliest occurrence of three consecutive backquotes; return the
characters before it and the characters after it. -/
def findTriple : List Char → Option (List Char × List Char)
  | [] => none
  | c :: rest =>
    match startsTriple (c :: rest) with
    | some rem => some ([], rem)
    | none =>
      match findTriple rest with
      | some (pre, rem) => some (c :: pre, rem)
      | none => none

/-- Stage-1 scanner: the exec-loop over
`/```(?:\w+\n)?([\s\S]*?)```|`([^`]+)`/g` from `extractCodeBlocks`
(line 160 of src/index.ts).  Emits the raw captured groups in order of
appearance.  `fuel` bounds the recursion; `fuel = length of the input`
is always enough because every step consumes at least one character. -/
def stage1Scan : Nat → List Char → List (List Char)
  | 0, _ => []
  | _, [] => []
  | Nat.succ fuel, c :: rest =>
    match startsTriple (c :: rest) with
    | some afterOpen =>
      -- fenced branch: optional greedy language tag `\w+\n`, then the
      -- lazy capture runs to the earliest closing triple
      let w := afterOpen.takeWhile isWordChar
      let afterLang :=
        if w ≠ [] ∧ (afterOpen.drop w.length).head? = some '\n'
        then afterOpen.drop (w.length + 1)
        else afterOpen
      match findTriple afterLang with
      | some (content, rem) => content :: stage1Scan fuel rem
      | none => stage1Scan fuel rest
    | none =>
      if c = bq then
        -- inline branch: backquote, one or more non-backquotes, backquote
        let run := rest.takeWhile (fun d => d ≠ bq)
        if run ≠ [] ∧ (rest.drop run.length).head? = some bq
        then run :: stage1Scan fuel (rest.drop (run.length + 1))
        else stage1Scan fuel rest
      else stage1Scan fuel rest

/-- Stage-1 fragments after the `if (block && block.trim())` filter of
lines 163-168: each raw capture is trimmed and empty results discarded. -/
def stage1Blocks (s : List Char) : List (List Char) :=
  (stage1Scan (s.length + 1) s).filterMap
    (fun b => if trimJS b = [] then none else some (trimJS b))

/-- The declaration keywords of the first stage-2 pattern
`/(?:const|let|var|function|class|import|export)[\s\S]*?(?:;|\})/g`. -/
def kwList : List (List Char) :=
  ["const".data, "let".data, "var".data, "function".data,
   "class".data, "import".data, "export".data]

/-- First keyword of `kwList` matching at the head of the list. -/
def matchKw (s : List Char) : Option (List Char) :=
  kwList.find? (fun k => k.isPrefixOf s)

/-- A statement terminator: semicolon or closing brace. -/
def isTermChar (c : Char) : Bool := c = ';' || c = Char.ofNat 125

/-- Split at the first statement terminator: returns the characters up to
and including it, and the remainder.  This is the lazy `[\s\S]*?(?:;|\})`. -/
def splitTerm : List Char → Option (List Char × List Char)
  | [] => none
  | c :: rest =>
    if isTermChar c then some ([c], rest)
    else
      match splitTerm rest with
      | some (a, b) => some (c :: a, b)
      | none => none

/-- Scanner for the first stage-2 family: keyword anywhere in the text,
then lazily to the first `;` or closing brace. -/
def family1Scan : Nat → List Char → List (List Char)
  | 0, _ => []
  | _, [] => []
  | Nat.succ fuel, c :: rest =>
    match matchKw (c :: rest) with
    | some k =>
      match splitTerm ((c :: rest).drop k.length) with
      | some (body, rem) => (k ++ body) :: family1Scan fuel rem
      | none => family1Scan fuel rest
    | none => family1Scan fuel rest

/-- The hook identifiers of the second stage-2 pattern
`/(?:useEffect|useState|useCallback|useMemo)\([\s\S]*?\)(?:;|\})/g`. -/
def hookList : List (List Char) :=
  ["useEffect".data, "useState".data, "useCallback".data, "useMemo".data]

/-- Lazy search for the first `)` that is immediately followed by a
statement terminator; returns the span through the terminator and the rest. -/
def splitParenTerm : List Char → Option (List Char × List Char)
  | [] => none
  | [_] => none
  | c :: d :: rest =>
    if c = ')' ∧ isTermChar d then some ([c, d], rest)
    else
      match splitParenTerm (d :: rest) with
      | some (a, b) => some (c :: a, b)
      | none => none

/-- Scanner for the second stage-2 family (reactive-hook calls). -/
def family2Scan : Nat → List Char → List (List Char)
  | 0, _ => []
  | _, [] => []
  | Nat.succ fuel, c :: rest =>
    match hookList.find? (fun k => k.isPrefixOf (c :: rest)) with
    | some k =>
      let after := (c :: rest).drop k.length
      if after.head? = some '(' then
        match splitParenTerm after.tail with
        | some (mid, rem) => (k ++ '(' :: mid) :: family2Scan fuel rem
        | none => family2Scan fuel rest
      else family2Scan fuel rest
    | none => family2Scan fuel rest

/-- The character class of the markup pattern opening tag: word chars,
whitespace, equals sign, double quote, single quote (code 39). -/
def attrChar (c : Char) : Bool :=
  isWordChar c || jsWhitespace c || c = '=' || c = '"' || c = Char.ofNat 39

/-- Lazy search for the first closing tag `</word>`; returns the span
through the end of the closing tag and the rest. -/
def splitCloseTag : List Char → Option (List Char × List Char)
  | [] => none
  | c :: rest =>
    if c = '<' ∧ rest.head? = some '/' ∧ (rest.tail.takeWhile isWordChar) ≠ [] ∧
       ((rest.tail.drop ((rest.tail.takeWhile isWordChar).length)).head? = some '>') then
      some (c :: '/' :: ((rest.tail.takeWhile isWordChar) ++ ['>']),
            rest.tail.drop ((rest.tail.takeWhile isWordChar).length + 1))
    else
      match splitCloseTag rest with
      | some (a, b) => some (c :: a, b)
      | none => none

/-- Scanner for the third stage-2 family: markup-like spans, an opening
tag with attribute characters through to its matching closing tag. -/
def family3Scan : Nat → List Char → List (List Char)
  | 0, _ => []
  | _, [] => []
  | Nat.succ fuel, c :: rest =>
    if c = '<' then
      let run := rest.takeWhile attrChar
      if run ≠ [] ∧ (rest.drop run.length).head? = some '>' then
        match splitCloseTag (rest.drop (run.length + 1)) with
        | some (body, rem) => (c :: (run ++ '>' :: body)) :: family3Scan fuel rem
        | none => family3Scan fuel rest
      else family3Scan fuel rest
    else family3Scan fuel rest

/-- `extractCodeBlocks` of src/index.ts lines 156-187 on character lists:
stage 1 (fenced/inline, trimmed, empties dropped); if it yielded nothing,
the three stage-2 families are concatenated in order (their matches are
pushed raw, untrimmed, exactly as `blocks.push(...matches)` does). -/
def extractBlocksL (s : List Char) : List (List Char) :=
  let b := stage1Blocks s
  if b = [] then
    family1Scan s.length s ++ family2Scan s.length s ++ family3Scan s.length s
  else b

/-- `extractCodeBlocks` lifted to `String`. -/
def extractCodeBlocks (s : String) : List String :=
  (extractBlocksL s.data).map List.asString

/-- One provider hit, as inspected by the formatter.  Fields that the
source tests for truthiness are `Option String`; a present empty string is
still falsy in JavaScript and is modelled by an explicit `= ""` guard. -/
structure SearchResult where
  url : String
  title : String
  content : Option String
  rawContent : Option String
deriving DecidableEq, Repr

/-- The result set of the provider: an optional synthesized answer and an
optional array of hits (`results.results` is itself tested for presence). -/
structure SearchResults where
  answer : Option String
  results : Option (List SearchResult)
deriving DecidableEq, Repr

/-- `if (v) { push(label); push(v); }` — the "Details:"/"Fix:"/… sections. -/
def optSection (label : String) (v : Option String) : List String :=
  match v with
  | some c => if c = "" then [] else [label, c]
  | none => []

/-- `if (results.answer) { push(label); push(answer + "\n"); }`. -/
def answerSection (label : String) (ans : Option String) : List String :=
  match ans with
  | some a => if a = "" then [] else [label, a ++ "\n"]
  | none => []

/-- Lines pushed for one result in the `code` branch (lines 56-76). -/
def codeResultLines (idx : Nat) (r : SearchResult) : List String :=
  ["Example " ++ toString (idx + 1) ++ ":", "Source: " ++ r.url]
  ++ (match r.rawContent with
      | some rc =>
        if rc = "" then []
        else ((extractCodeBlocks rc).map (fun b => ["\nCode:", trimS b])).flatten
      | none => [])
  ++ optSection "\nDescription:" r.content
  ++ [""]

/-- Lines pushed for one result in the `docs` branch (lines 87-96). -/
def docsResultLines (r : SearchResult) : List String :=
  [r.title, "Source: " ++ r.url] ++ optSection "\nDetails:" r.content ++ [""]

/-- Lines pushed for one result in the `debug` branch (lines 107-117). -/
def debugResultLines (idx : Nat) (r : SearchResult) : List String :=
  ["Solution " ++ toString (idx + 1) ++ ":", "Context: " ++ r.title,
   "Source: " ++ r.url]
  ++ optSection "\nFix:" r.content ++ [""]

/-- Lines pushed for one result in the `learn` branch (lines 128-137). -/
def learnResultLines (r : SearchResult) : List String :=
  [r.title, "Source: " ++ r.url] ++ optSection "\nKey Points:" r.content ++ [""]

/-- `if (results.results && Array.isArray(results.results)) forEach…`:
an absent array contributes nothing; a present (even empty) one is walked
with its zero-based index. -/
def resultsLines (rs : Option (List SearchResult))
    (f : Nat → SearchResult → List String) : List String :=
  match rs with
  | some l => (l.enum.map (fun p => f p.1 p.2)).flatten
  | none => []

/-- The absent-result-set report (lines 38-43). -/
def noResultsText : String :=
  "No results were found for your query. Please try a different search term."

/-- The empty-report fallback (lines 142-147). -/
def nothingRelevantText : String :=
  "The search was completed but no relevant information was found. Please try refining your query."

/-- `processSearchResults` of src/index.ts lines 37-153: absent result set
short-circuits; otherwise the category switch builds the line list (each
recognized branch pushes its header first; an unrecognized category pushes
nothing), and an empty line list becomes the fixed fallback text, else the
lines are joined with newlines. -/
def processSearchResults (results : Option SearchResults) (type : String) : String :=
  match results with
  | none => noResultsText
  | some rs =>
    let lines : List String :=
      if type = "code" then
        "Code Examples & Implementation:\n" ::
          (answerSection "Overview:" rs.answer ++ resultsLines rs.results codeResultLines)
      else if type = "docs" then
        "Technical Documentation:\n" ::
          (answerSection "Quick Reference:" rs.answer
            ++ resultsLines rs.results (fun _ r => docsResultLines r))
      else if type = "debug" then
        "Debugging Solutions:\n" ::
          (answerSection "Quick Solution:" rs.answer
            ++ resultsLines rs.results debugResultLines)
      else if type = "learn" then
        "Learning Resources:\n" ::
          (answerSection "Overview:" rs.answer
            ++ resultsLines rs.results (fun _ r => learnResultLines r))
      else []
    if lines = [] then nothingRelevantText
    else String.intercalate "\n" lines

/-- Search depth option of the Tavily call. -/
inductive SearchDepth where
  | basic
  | advanced
deriving DecidableEq, Repr

/-- The options object passed to `tvly.search` (base options plus the
per-category overrides of lines 258-290). -/
structure SearchPolicy where
  maxResults : Nat
  searchDepth : SearchDepth
  includeAnswer : Bool
  includeRawContent : Bool
deriving DecidableEq, Repr

/-- The per-category options switch of lines 264-291.  The switch has no
default case: a category outside the four leaves `results` undefined and
performs no provider call, hence `none` here. -/
def policyFor (t : String) : Option SearchPolicy :=
  if t = "code" then some ⟨3, SearchDepth.advanced, true, true⟩
  else if t = "docs" then some ⟨2, SearchDepth.basic, true, true⟩
  else if t = "debug" then some ⟨5, SearchDepth.advanced, true, true⟩
  else if t = "learn" then some ⟨3, SearchDepth.basic, true, true⟩
  else none

/-- Outcome of one `tvly.search` call: a result set (possibly a nullish
value, handled by the formatter) or a thrown error with a message. -/
inductive ProviderOutcome where
  | ok (rs : Option SearchResults)
  | err (msg : String)

/-- The caller-supplied `arguments` object: each field models presence of
the property (the JavaScript in-operator check on args tests presence
of the query key, not truthiness). -/
structure ToolArgs where
  query : Option String
  type : Option String

/-- Fixed unknown-tool response text (lines 231-240). -/
def unknownToolText (name : String) : String :=
  "Error: Unknown tool \x27" ++ name ++ "\x27. Only \x27search\x27 is supported."

/-- Fixed invalid-arguments response text (lines 242-251). -/
def invalidArgsText : String :=
  "Error: Invalid arguments. A \x27query\x27 parameter is required."

/-- Substring test on character lists (JavaScript `String.includes`). -/
def containsSub (hay needle : List Char) : Bool :=
  (List.range (hay.length + 1)).any (fun i => needle.isPrefixOf (hay.drop i))

/-- `String.includes` lifted to `String`. -/
def containsSubS (hay needle : String) : Bool := containsSub hay.data needle.data

/-- Fixed authentication-error response text (lines 303-309). -/
def authErrorText : String :=
  "Authentication error occurred. Please check the API key configuration."

/-- Fixed rate-limit response text (lines 310-317). -/
def rateLimitText : String :=
  "Rate limit exceeded. Please wait a moment before trying again."

/-- Generic-error response text including the raw message (lines 319-324). -/
def genericErrorText (msg : String) : String :=
  "An unexpected error occurred during the search. Please try again later. Error: " ++ msg

/-- JavaScript `toLowerCase` on the ASCII range: lower-case every
character (the classification needles are pure ASCII). -/
def lowerS (s : String) : String := (s.data.map Char.toLower).asString

/-- The catch block of lines 298-325: case-insensitive substring
classification of the error message, first match wins. -/
def classifyError (msg : String) : String :=
  if containsSubS (lowerS msg) "api_key" then authErrorText
  else if containsSubS (lowerS msg) "rate limit" then rateLimitText
  else genericErrorText msg

/-- The CallToolRequestSchema handler of lines 228-326.  The Tavily client
is abstracted as `provider`; the second component of the result is the
trace of provider invocations `(query, options)` made while handling the
request.  `args.type || "code"` makes a present empty-string type fall
back to `"code"` (JavaScript falsiness). -/
def handleCallTool (name : String) (args : Option ToolArgs)
    (provider : String → SearchPolicy → ProviderOutcome) :
    String × List (String × SearchPolicy) :=
  if name ≠ "search" then (unknownToolText name, [])
  else
    match args with
    | none => (invalidArgsText, [])
    | some a =>
      match a.query with
      | none => (invalidArgsText, [])
      | some q =>
        let type :=
          match a.type with
          | some t => if t = "" then "code" else t
          | none => "code"
        match policyFor type with
        | some pol =>
          match provider q pol with
          | ProviderOutcome.ok rs => (processSearchResults rs type, [(q, pol)])
          | ProviderOutcome.err msg => (classifyError msg, [(q, pol)])
        | none => (processSearchResults none type, [])

/-- A provider that always succeeds with an empty (but present) result set. -/
def okEmptyProvider : String → SearchPolicy → ProviderOutcome :=
  fun _ _ => ProviderOutcome.ok (some ⟨some "answer", some []⟩)

/-- A provider that always throws with the given message. -/
def errProvider (msg : String) : String → SearchPolicy → ProviderOutcome :=
  fun _ _ => ProviderOutcome.err msg

/-! ### Helper lemmas -/

theorem isPrefixOf_self (l : List Char) : l.isPrefixOf l = true := by
  induction l with
  | nil => rfl
  | cons c cs ih => simp [List.isPrefixOf, ih]

theorem containsSub_append (p m : List Char) : containsSub (p ++ m) m = true := by
  unfold containsSub
  rw [List.any_eq_true]
  refine ⟨p.length, ?_, ?_⟩
  · rw [List.mem_range]
    have : p.length ≤ p.length + m.length := Nat.le_add_right _ _
    calc p.length ≤ (p ++ m).length := by rw [List.length_append]; exact this
      _ < (p ++ m).length + 1 := Nat.lt_succ_self _
  · rw [List.drop_left]
    exact isPrefixOf_self m

theorem splitTerm_sound (s : List Char) :
    ∀ a b, splitTerm s = some (a, b) →
      ∃ a2 t, a = a2 ++ [t] ∧ isTermChar t = true ∧ ∀ c ∈ a2, isTermChar c = false := by
  induction s with
  | nil => intro a b h; simp [splitTerm] at h
  | cons c rest ih =>
    intro a b h
    rw [splitTerm] at h
    by_cases hc : isTermChar c = true
    · rw [if_pos hc] at h
      obtain ⟨h1, _⟩ := Prod.mk.injEq .. ▸ Option.some.inj h
      exact ⟨[], c, by simp [h1.symm], hc, by intro x hx; cases hx⟩
    · rw [if_neg hc] at h
      cases hsp : splitTerm rest with
      | none => rw [hsp] at h; cases h
      | some p =>
        rw [hsp] at h
        obtain ⟨a1, b1⟩ := p
        obtain ⟨h1, h2⟩ := Prod.mk.injEq .. ▸ Option.some.inj h
        obtain ⟨a2, t, ha, ht, hall⟩ := ih a1 b1 hsp
        refine ⟨c :: a2, t, ?_, ht, ?_⟩
        · rw [← h1, ha]; rfl
        · intro x hx
          rcases List.mem_cons.mp hx with hx | hx
          · rw [hx]; exact Bool.not_eq_true _ ▸ hc
          · exact hall x hx

theorem kwList_no_term : ∀ k ∈ kwList, ∀ c ∈ k, isTermChar c = false := by decide

theorem family1Scan_sound (fuel : Nat) :
    ∀ (s f : List Char), f ∈ family1Scan fuel s →
      (∃ k r, k ∈ kwList ∧ f = k ++ r) ∧
      (∃ a t, f = a ++ [t] ∧ isTermChar t = true ∧ ∀ c ∈ a, isTermChar c = false) := by
  induction fuel with
  | zero => intro s f h; simp [family1Scan] at h
  | succ n ih =>
    intro s f h
    match s with
    | [] => simp [family1Scan] at h
    | c :: rest =>
      rw [family1Scan] at h
      cases hk : matchKw (c :: rest) with
      | none => rw [hk] at h; exact ih rest f h
      | some k =>
        rw [hk] at h
        dsimp only at h
        cases hsp : splitTerm ((c :: rest).drop k.length) with
        | none => rw [hsp] at h; exact ih rest f h
        | some p =>
          obtain ⟨body, rem⟩ := p
          rw [hsp] at h
          dsimp only at h
          rcases List.mem_cons.mp h with h | h
          · have hkmem : k ∈ kwList := List.mem_of_find?_eq_some hk
            obtain ⟨a2, t, hb, ht, hall⟩ := splitTerm_sound _ _ _ hsp
            constructor
            · exact ⟨k, body, hkmem, h⟩
            · refine ⟨k ++ a2, t, ?_, ht, ?_⟩
              · rw [h, hb, List.append_assoc]
              · intro x hx
                rcases List.mem_append.mp hx with hx | hx
                · exact kwList_no_term k hkmem x hx
                · exact hall x hx
          · exact ih rem f h

theorem head_data_append (a : String) (c : Char) (rest : List Char)
    (h : a.data = c :: rest) (y : String) : (a ++ y).data.head? = some c := by
  rw [String.data_append, h]; rfl

theorem containsSubS_append (p m : String) : containsSubS (p ++ m) m = true := by
  unfold containsSubS
  rw [String.data_append]
  exact containsSub_append _ _

/-- Split a character list into its lines (at newline characters). -/
def splitLinesL : List Char → List (List Char)
  | [] => [[]]
  | c :: rest =>
    match splitLinesL rest with
    | [] => [[c]]
    | l :: ls => if c = '\n' then [] :: l :: ls else (c :: l) :: ls

/-- Does the line begin with one of the stage-2 declaration keywords? -/
def lineStartsWithKw (l : List Char) : Bool :=
  kwList.any (fun k => k.isPrefixOf l)

/-! ### Claim theorems -/

/-- C1: for each of the four categories, the handler invokes the provider
exactly once, with exactly the option set of the §4.2 table (code → 3
results, advanced depth; docs → 2, basic; debug → 5, advanced; learn → 3,
basic; answer and raw content always requested). -/
theorem policy_table_per_category (q : String)
    (provider : String → SearchPolicy → ProviderOutcome) :
    (handleCallTool "search" (some ⟨some q, some "code"⟩) provider).2
      = [(q, ⟨3, SearchDepth.advanced, true, true⟩)] ∧
    (handleCallTool "search" (some ⟨some q, some "docs"⟩) provider).2
      = [(q, ⟨2, SearchDepth.basic, true, true⟩)] ∧
    (handleCallTool "search" (some ⟨some q, some "debug"⟩) provider).2
      = [(q, ⟨5, SearchDepth.advanced, true, true⟩)] ∧
    (handleCallTool "search" (some ⟨some q, some "learn"⟩) provider).2
      = [(q, ⟨3, SearchDepth.basic, true, true⟩)] := by
  refine ⟨?_, ?_, ?_, ?_⟩
  · cases hp : provider q ⟨3, SearchDepth.advanced, true, true⟩ <;>
      simp [handleCallTool, policyFor, hp]
  · cases hp : provider q ⟨2, SearchDepth.basic, true, true⟩ <;>
      simp [handleCallTool, policyFor, hp]
  · cases hp : provider q ⟨5, SearchDepth.advanced, true, true⟩ <;>
      simp [handleCallTool, policyFor, hp]
  · cases hp : provider q ⟨3, SearchDepth.basic, true, true⟩ <;>
      simp [handleCallTool, policyFor, hp]

/-- C2: stage-2 heuristics are applied only when the fenced/inline scan
yields nothing — whenever stage 1 produced at least one fragment the
extractor returns exactly the stage-1 fragments; and on the example
input the result is exactly the two fenced/inline fragments. -/
theorem extractor_stage1_precedence (s : String) (h : stage1Blocks s.data ≠ []) :
    extractCodeBlocks s = (stage1Blocks s.data).map List.asString ∧
    extractCodeBlocks "Here: ```const x = 1;``` and also `y`" = ["const x = 1;", "y"] := by
  constructor
  · unfold extractCodeBlocks extractBlocksL
    rw [if_neg h]
  · decide

theorem extractor_stage1_precedence_witness :
    stage1Blocks ("a `b` c".data) ≠ [] ∧
    (extractCodeBlocks "a `b` c" = (stage1Blocks ("a `b` c".data)).map List.asString ∧
     extractCodeBlocks "Here: ```const x = 1;``` and also `y`" = ["const x = 1;", "y"]) :=
  ⟨by decide, extractor_stage1_precedence "a `b` c" (by decide)⟩

/-- C3 counterexample: formatting a present result set with empty results
and no answer in the `code` category returns the header-only report, not
the fixed "nothing relevant" text, because every recognized branch pushes
its header line before looking at answer or results. -/
theorem formatter_empty_results_cex :
    processSearchResults (some ⟨none, some []⟩) "code" = "Code Examples & Implementation:\n" ∧
    processSearchResults (some ⟨none, some []⟩) "code" ≠ nothingRelevantText := by decide

/-- C3 amended: for each recognized category, a present result set with
empty results and absent answer formats to exactly the header-only
report of that category; the fixed "nothing relevant" text is produced only
when the category is unrecognized. -/
theorem formatter_empty_results_amended (t : String) (h1 : t ≠ "code") (h2 : t ≠ "docs")
    (h3 : t ≠ "debug") (h4 : t ≠ "learn") :
    processSearchResults (some ⟨none, some []⟩) "code" = "Code Examples & Implementation:\n" ∧
    processSearchResults (some ⟨none, some []⟩) "docs" = "Technical Documentation:\n" ∧
    processSearchResults (some ⟨none, some []⟩) "debug" = "Debugging Solutions:\n" ∧
    processSearchResults (some ⟨none, some []⟩) "learn" = "Learning Resources:\n" ∧
    processSearchResults (some ⟨none, some []⟩) t = nothingRelevantText := by
  refine ⟨by decide, by decide, by decide, by decide, ?_⟩
  simp [processSearchResults, h1, h2, h3, h4]

theorem formatter_empty_results_amended_witness :
    processSearchResults (some ⟨none, some []⟩) "code" = "Code Examples & Implementation:\n" ∧
    processSearchResults (some ⟨none, some []⟩) "docs" = "Technical Documentation:\n" ∧
    processSearchResults (some ⟨none, some []⟩) "debug" = "Debugging Solutions:\n" ∧
    processSearchResults (some ⟨none, some []⟩) "learn" = "Learning Resources:\n" ∧
    processSearchResults (some ⟨none, some []⟩) "misc" = nothingRelevantText :=
  formatter_empty_results_amended "misc" (by decide) (by decide) (by decide) (by decide)

/-- C4 counterexample: with a query and the unrecognized category "news",
the provider is never invoked (the trace is empty — the options switch has
no default case) and the report is the fixed "no results found" text, not
the "nothing relevant" fallback. -/
theorem unrecognized_category_cex :
    handleCallTool "search" (some ⟨some "q", some "news"⟩) okEmptyProvider
      = (noResultsText, []) ∧
    noResultsText ≠ nothingRelevantText := by decide

/-- C4 amended: for every call with a query and a non-empty category value
outside the four recognized ones, no provider call is made and the
response is the fixed "no results found" report (the `results` variable
stays undefined, so the formatter takes its absent-result-set branch). -/
theorem unrecognized_category_amended (q t : String)
    (provider : String → SearchPolicy → ProviderOutcome)
    (h0 : t ≠ "") (h1 : t ≠ "code") (h2 : t ≠ "docs") (h3 : t ≠ "debug") (h4 : t ≠ "learn") :
    handleCallTool "search" (some ⟨some q, some t⟩) provider = (noResultsText, []) := by
  simp [handleCallTool, policyFor, processSearchResults, h0, h1, h2, h3, h4]

theorem unrecognized_category_amended_witness :
    handleCallTool "search" (some ⟨some "q", some "blog"⟩) okEmptyProvider
      = (noResultsText, []) :=
  unrecognized_category_amended "q" "blog" okEmptyProvider
    (by decide) (by decide) (by decide) (by decide) (by decide)

/-- C5: on provider failure the response is chosen by case-insensitive
substring matching on the message, in order: "api_key" → authentication
report; otherwise "rate limit" → rate-limit report; otherwise the generic
report, which contains the raw message as a substring. -/
theorem provider_error_classification (q msg : String) :
    (containsSubS (lowerS msg) "api_key" = true →
      (handleCallTool "search" (some ⟨some q, some "code"⟩) (errProvider msg)).1
        = authErrorText) ∧
    (containsSubS (lowerS msg) "api_key" = false →
      containsSubS (lowerS msg) "rate limit" = true →
      (handleCallTool "search" (some ⟨some q, some "code"⟩) (errProvider msg)).1
        = rateLimitText) ∧
    (containsSubS (lowerS msg) "api_key" = false →
      containsSubS (lowerS msg) "rate limit" = false →
      (handleCallTool "search" (some ⟨some q, some "code"⟩) (errProvider msg)).1
        = genericErrorText msg ∧
      containsSubS (genericErrorText msg) msg = true) := by
  refine ⟨?_, ?_, ?_⟩
  · intro hA
    simp [handleCallTool, policyFor, errProvider, classifyError, hA]
  · intro hA hR
    simp [handleCallTool, policyFor, errProvider, classifyError, hA, hR]
  · intro hA hR
    constructor
    · simp [handleCallTool, policyFor, errProvider, classifyError, hA, hR]
    · exact containsSubS_append _ msg

theorem provider_error_classification_witness :
    (containsSubS (lowerS "Invalid api_key provided") "api_key" = true) ∧
    (handleCallTool "search" (some ⟨some "x", some "code"⟩)
        (errProvider "Invalid api_key provided")).1 = authErrorText :=
  ⟨by decide, (provider_error_classification "x" "Invalid api_key provided").1 (by decide)⟩

/-- C6: if the arguments are absent or contain no query field, the handler
returns the fixed invalid-arguments report and the provider-call trace is
empty — the provider is never invoked. -/
theorem missing_query_no_provider (t : Option String)
    (provider : String → SearchPolicy → ProviderOutcome) :
    handleCallTool "search" (some ⟨none, t⟩) provider = (invalidArgsText, []) ∧
    handleCallTool "search" none provider = (invalidArgsText, []) := by
  constructor <;> rfl

/-- C7: for every category value, formatting an absent result set returns
exactly the fixed "no results found" report — a normal text response, the
same shape as every success. -/
theorem absent_results_fixed_report (t : String) :
    processSearchResults none t = noResultsText := rfl

/-- C8 counterexample: on "xx const a = 1;" (no fenced or inline
delimiters) no line of the input begins with a declaration keyword, yet
the first stage-2 family produces the fragment "const a = 1;" — the
keyword pattern is not anchored to line starts. -/
theorem familyOne_line_anchor_cex :
    stage1Blocks ("xx const a = 1;".data) = [] ∧
    extractCodeBlocks "xx const a = 1;" = ["const a = 1;"] ∧
    (splitLinesL ("xx const a = 1;".data)).all (fun l => !(lineStartsWithKw l)) = true := by
  decide

/-- C8 amended: every fragment produced by the first stage-2 family begins
with one of the keywords const/let/var/function/class/import/export (as a
string prefix, matched at any position of the text, not only at line
starts) and extends exactly to the first following statement terminator
(`;` or closing brace) — the terminator ends the fragment and no earlier
character of the fragment is one; and a delimiter-free text containing
"const a = 1;" yields exactly that fragment. -/
theorem familyOne_fragments_amended (s f : List Char)
    (h : f ∈ family1Scan s.length s) :
    ((∃ k r, k ∈ kwList ∧ f = k ++ r) ∧
     (∃ a t, f = a ++ [t] ∧ isTermChar t = true ∧ ∀ c ∈ a, isTermChar c = false)) ∧
    extractCodeBlocks "zz const a = 1;" = ["const a = 1;"] :=
  ⟨family1Scan_sound s.length s f h, by decide⟩

theorem familyOne_fragments_amended_witness :
    ("const a = 1;".data ∈
      family1Scan ("zz const a = 1;".data.length) ("zz const a = 1;".data)) ∧
    (((∃ k r, k ∈ kwList ∧ "const a = 1;".data = k ++ r) ∧
      (∃ a t, "const a = 1;".data = a ++ [t] ∧ isTermChar t = true ∧
        ∀ c ∈ a, isTermChar c = false)) ∧
     extractCodeBlocks "zz const a = 1;" = ["const a = 1;"]) :=
  ⟨by decide,
   familyOne_fragments_amended ("zz const a = 1;".data) ("const a = 1;".data) (by decide)⟩

/-- C9: the formatter is a pure function of the result set and the
category — two applications to the same pair give the same report. -/
theorem formatter_deterministic (rs : Option SearchResults) (t : String) :
    processSearchResults rs t = processSearchResults rs t := rfl

/-- C10: in the code category, a result whose rawContent yields zero
extracted fragments gets no "Code:" sub-header: its block is exactly the
index label, the Source line, the Description section (when content is
present) and the blank separator; the "Code:" label can occur only if it
is literally the content text of the result. -/
theorem code_result_no_code_subheader (i : Nat) (r : SearchResult) (rc : String)
    (h1 : r.rawContent = some rc) (h2 : extractCodeBlocks rc = []) :
    codeResultLines i r =
      ["Example " ++ toString (i + 1) ++ ":", "Source: " ++ r.url]
        ++ optSection "\nDescription:" r.content ++ [""] ∧
    ("\nCode:" ∈ codeResultLines i r → r.content = some "\nCode:") := by
  have hblock : codeResultLines i r =
      ["Example " ++ toString (i + 1) ++ ":", "Source: " ++ r.url]
        ++ optSection "\nDescription:" r.content ++ [""] := by
    unfold codeResultLines
    rw [h1]
    dsimp only
    by_cases hrc : rc = ""
    · rw [if_pos hrc]
      simp
    · rw [if_neg hrc, h2]
      simp
  refine ⟨hblock, ?_⟩
  intro hmem
  rw [hblock] at hmem
  simp only [List.mem_append, List.mem_cons, List.not_mem_nil, or_false] at hmem
  rcases hmem with ((he | he) | hm) | he
  · exfalso
    have hh := congrArg (fun s => s.data.head?) he
    simp only at hh
    rw [show ("Example " ++ toString (i + 1) ++ ":" : String)
          = "Example " ++ (toString (i + 1) ++ ":") from (String.append_assoc ..),
        head_data_append "Example " 'E' ("xample ".data) rfl] at hh
    exact absurd hh (by decide)
  · exfalso
    have hh := congrArg (fun s => s.data.head?) he
    simp only at hh
    rw [head_data_append "Source: " 'S' ("ource: ".data) rfl] at hh
    exact absurd hh (by decide)
  · cases hc : r.content with
    | none => rw [hc] at hm; simp [optSection] at hm
    | some c =>
      rw [hc] at hm
      by_cases hce : c = ""
      · simp [optSection, hce] at hm
      · simp only [optSection, if_neg hce, List.mem_cons, List.not_mem_nil, or_false] at hm
        rcases hm with he | he
        · exact absurd he (by decide)
        · exact congrArg some he.symm
  · exact absurd he (by decide)

theorem code_result_no_code_subheader_witness :
    ((⟨"u", "t", some "d", some "no code here"⟩ : SearchResult).rawContent
        = some "no code here") ∧
    extractCodeBlocks "no code here" = [] ∧
    (codeResultLines 0 ⟨"u", "t", some "d", some "no code here"⟩ =
      ["Example " ++ toString (0 + 1) ++ ":", "Source: " ++ "u"]
        ++ optSection "\nDescription:" (some "d") ++ [""] ∧
     ("\nCode:" ∈ codeResultLines 0 ⟨"u", "t", some "d", some "no code here"⟩ →
       (some "d" : Option String) = some "\nCode:")) :=
  ⟨rfl, by decide,
   code_result_no_code_subheader 0 ⟨"u", "t", some "d", some "no code here"⟩
     "no code here" rfl (by decide)⟩

end Tavily
